import Mathlib

/-!
# kubectl-login: a shallow embedding of `main.go`

The program is one sequential pipeline: load the configuration file, resolve the
alias given on the command line, resolve the client secret, run the OIDC
discovery, open the browser, read a pasted token, verify it and finally call
`kubectl` three times.

Everything the program obtains from outside (environment variables, the file
system, the JSON decoder, the OIDC and OAuth2 libraries, the terminal, child
processes) is a field of `World`.  A run is a value of `Run`: the list of
external effects in the order they happen, and either a result or the status
with which the process ended.  Printed messages are kept as the pieces handed
to the formatting calls, before the colour library renders them.
-/

namespace KubectlLogin

/-! ## Data model -/

/-- The Go struct `Configuration` (main.go, lines 26-32). -/
structure Configuration where
  Issuer : String
  RedirectURL : String
  LoginSecret : String
  Cluster : String
  Aliases : List String
deriving DecidableEq, Repr

/-- The Go type `map[string]*Configuration`, as the sequence of (key, value)
pairs in the order in which `range` visits them.  A `nil` pointer is `none`. -/
abbrev ConfigMap := List (String × Option Configuration)

/-- A configuration map all of whose values are records (no `nil` pointer). -/
def ofRecords (m : List (String × Configuration)) : ConfigMap :=
  m.map (fun e => (e.1, some e.2))

/-- The Go struct `oauth2.Endpoint`, as far as the program touches it. -/
structure Endpoint where
  AuthURL : String
  TokenURL : String
deriving DecidableEq, Repr

/-- What `oidc.NewProvider` returns, as far as the program touches it. -/
structure Provider where
  issuer : String
  endpoint : Endpoint
deriving DecidableEq, Repr

/-- The Go struct `oauth2.Config` built at lines 96-111. -/
structure OAuth2Config where
  ClientID : String
  ClientSecret : String
  RedirectURL : String
  Endpoint : Endpoint
  Scopes : List String
deriving DecidableEq, Repr

/-- A value handed to a formatting verb `%s`: a plain string, or a value
wrapped by the colour library (`Cyan(v)`, `Bold(v)`). -/
inductive Value where
  | str (s : String)
  | Cyan (v : Value)
  | Bold (v : Value)
deriving DecidableEq, Repr

/-- A formatted message before the terminal renders it: the literal pieces of
the format string and the values put in place of its verbs, in order. -/
abbrev Msg := List Value

/-- How the process ends: `os.Exit(code)` (a return from `main` is `exited 0`),
or an unrecovered run-time panic. -/
inductive Status where
  | exited (code : Nat)
  | panicked
deriving DecidableEq, Repr

/-- The exit status the operating system sees; the Go run time ends a
panicking process with status 2. -/
def Status.code : Status → Nat
  | .exited c => c
  | .panicked => 2

/-- The external effects of a run.  A fallible operation records the error it
returned (`none`: no error). -/
inductive Effect where
  | openFile (path : String) (err : Option String)
  | readAll (path : String) (err : Option String)
  | newProvider (issuer : String) (err : Option String)
  | start (name : String) (args : List String) (err : Option String)
  | run (name : String) (args : List String) (err : Option String)
  | readPassword (err : Option String)
  | verify (token : String) (err : Option String)
  /-- A message written with `fmt.Print` or `fmt.Printf`. -/
  | print (out : Msg)
  /-- A message written through `logger`. -/
  | log (out : Msg)
deriving DecidableEq, Repr

/-- Everything a run takes from outside the program. -/
structure World where
  /-- The call `os.Getenv`: the empty string for an unset variable. -/
  getenv : String → String
  /-- The slice `os.Args[1:]`. -/
  args : List String
  /-- The constant `runtime.GOOS`. -/
  goos : String
  /-- The call `os.Open`, by path: the error, if any. -/
  openFile : String → Option String
  /-- The call `ioutil.ReadAll` on the opened file, by path. -/
  readAll : String → Except String String
  /-- The call `json.Unmarshal` into a `map[string]*Configuration`, followed by
  the order in which `range` visits the map. -/
  unmarshal : String → Except String ConfigMap
  /-- The call `oidc.NewProvider`, by issuer. -/
  newProvider : String → Except String Provider
  /-- The method `oauth2.Config.AuthCodeURL`. -/
  authCodeURL : OAuth2Config → String → String
  /-- The method `exec.Cmd.Start`: the error, if any. -/
  start : String → List String → Option String
  /-- The call `terminal.ReadPassword`. -/
  readPassword : Except String String
  /-- The method `IDTokenVerifier.Verify` of the verifier made from a provider
  and a client id: the error, if any. -/
  verify : Provider → String → String → Option String
  /-- The method `exec.Cmd.Run`: the error, if any. -/
  run : String → List String → Option String

/-! ## Runs -/

deriving instance DecidableEq for Except

/-- A computation of the program: the effects performed so far and either a
value or the status with which the process ended. -/
structure Run (α : Type) where
  trace : List Effect
  res : Except Status α
deriving DecidableEq

/-- A computation without effects. -/
def Run.pure {α : Type} (a : α) : Run α := ⟨[], .ok a⟩

/-- Sequencing: the second computation runs only if the first returned. -/
def Run.bind {α β : Type} (x : Run α) (f : α → Run β) : Run β :=
  match x.res with
  | .error s => ⟨x.trace, .error s⟩
  | .ok a => ⟨x.trace ++ (f a).trace, (f a).res⟩

/-- Perform one external effect. -/
def emit (e : Effect) : Run Unit := ⟨[e], .ok ()⟩

/-- End the process. -/
def halt {α : Type} (s : Status) : Run α := ⟨[], .error s⟩

/-- The call `logger.Fatal`: log the message, then `os.Exit(1)`. -/
def fatal {α : Type} (msg : Msg) : Run α :=
  Run.bind (emit (.log msg)) (fun _ => halt (.exited 1))

/-- The status of a finished run of `main`: a return from `main` is status 0. -/
def Run.status (r : Run Unit) : Status :=
  match r.res with
  | .error s => s
  | .ok _ => .exited 0

/-! ## The program -/

/-- The function `rawConfig` (lines 34-50). -/
def rawConfig (w : World) : Run ConfigMap :=
  let path := w.getenv "HOME" ++ "/.kubectl-login.json"
  Run.bind (emit (.openFile path (w.openFile path))) fun _ =>
  match w.openFile path with
  | some err => fatal [.str "error:", .str err]
  | none =>
    match w.readAll path with
    | .error err =>
      Run.bind (emit (.readAll path (some err))) fun _ => fatal [.str "error:", .str err]
    | .ok data =>
      Run.bind (emit (.readAll path none)) fun _ =>
      match w.unmarshal data with
      | .error err => fatal [.str "error:", .str err]
      | .ok objmap => Run.pure objmap

/-- The loop of `containsAlias` over `c.Aliases` (lines 148-153). -/
def containsAliasLoop : List String → String → Bool
  | [], _ => false
  | val :: rest, s => if val = s then true else containsAliasLoop rest s

/-- The function `containsAlias` (lines 147-154).  Reading `c.Aliases` through
a `nil` pointer is a run-time panic: the result is then `none`. -/
def containsAlias : Option Configuration → String → Option Bool
  | none, _ => none
  | some c, s => some (containsAliasLoop c.Aliases s)

/-- The loop of lines 67-72 on the variables `(cluster, config)`: every pair is
visited, and each matching pair overwrites both variables.  The result is
`none` when `containsAlias` panics. -/
def aliasLoop : ConfigMap → String → String × Option Configuration →
    Option (String × Option Configuration)
  | [], _, st => some st
  | (k, v) :: rest, s, st =>
    match containsAlias v s with
    | none => none
    | some true => aliasLoop rest s (k, v)
    | some false => aliasLoop rest s st

/-- The text of the alias-not-found error (line 75). -/
def aliasNotFoundMsg (s : String) : Msg :=
  [.str "Alias \"", .Bold (.Cyan (.str s)), .str "\" not found. try '",
    .Bold (.Cyan (.str "cat $HOME/.kubectl-login.json")), .str "' to get this value."]

/-- The text of the usage error (line 59). -/
def usageMsg : Msg :=
  [.str "Alias is mandatory i.e ", .Bold (.Cyan (.str "kubectl-login <ALIAS>")), .str ". try '",
    .Bold (.Cyan (.str "cat $HOME/.kubectl-login.json")), .str "' to get this value."]

/-- The text of the missing-secret error (line 85). -/
def secretMsg : Msg :=
  [.str "KUBELOGIN is not set. You Can also set this in your ~/.kubectl-login.json file."]

/-- Alias resolution (lines 64-76): the loop from `cluster = ""`, `config = nil`,
then the check `cluster == ""`. -/
def resolveAlias (rawConfigMap : ConfigMap) (s : String) :
    Run (String × Option Configuration) :=
  match aliasLoop rawConfigMap s ("", none) with
  | none => halt .panicked
  | some (cluster, config) =>
    if cluster = "" then fatal (aliasNotFoundMsg s) else Run.pure (cluster, config)

/-- Secret resolution (lines 78-86).  `config.LoginSecret` is read only when
the environment variable is empty; through a `nil` pointer it panics. -/
def resolveSecret (w : World) (config : Option Configuration) : Run String :=
  if w.getenv "KUBELOGIN" ≠ "" then Run.pure (w.getenv "KUBELOGIN")
  else
    match config with
    | none => halt .panicked
    | some c => if c.LoginSecret ≠ "" then Run.pure c.LoginSecret else fatal secretMsg

/-- The predicate `unicode.IsSpace` of the Go library. -/
def isSpace (c : Char) : Bool :=
  let n := c.toNat
  (9 ≤ n && n ≤ 13) || n = 32 || n = 0x85 || n = 0xA0 || n = 0x1680 ||
  (0x2000 ≤ n && n ≤ 0x200A) || n = 0x2028 || n = 0x2029 || n = 0x202F ||
  n = 0x205F || n = 0x3000

/-- The function `strings.TrimSpace` of the Go library. -/
def trimSpace (s : String) : String :=
  String.mk ((s.data.dropWhile isSpace).reverse.dropWhile isSpace).reverse

/-- The function `getToken` (lines 160-184): the prompt, the masked read and
the trimming of the token.  The saving and restoring of the terminal state and
the interrupt handler are left out: a run here is one that is not interrupted. -/
def getToken (w : World) : Run String :=
  Run.bind (emit (.print [.Cyan (.str "Enter token: ")])) fun _ =>
  match w.readPassword with
  | .error err => Run.bind (emit (.readPassword (some err))) fun _ => fatal [.str err]
  | .ok byteToken => Run.bind (emit (.readPassword none)) fun _ => Run.pure (trimSpace byteToken)

/-- The function `setCreds` (lines 186-193). -/
def setCreds (w : World) (token : String) : Run Unit :=
  let tstr := "--token=" ++ token
  let args := ["config", "set-credentials", "kubectl-login", tstr]
  Run.bind (emit (.run "kubectl" args (w.run "kubectl" args))) fun _ =>
  match w.run "kubectl" args with
  | some err => fatal [.str err]
  | none => Run.pure ()

/-- The function `switchContext` (lines 195-209). -/
def switchContext (w : World) (cluster : String) : Run Unit :=
  let clusterArg := "--cluster=" ++ cluster
  let args1 := ["config", "set-context", "kubectl-login-context", "--user=kubectl-login",
    clusterArg, "--namespace=default"]
  Run.bind (emit (.run "kubectl" args1 (w.run "kubectl" args1))) fun _ =>
  match w.run "kubectl" args1 with
  | some err => fatal [.str err]
  | none =>
    let args2 := ["config", "use-context", "kubectl-login-context"]
    Run.bind (emit (.run "kubectl" args2 (w.run "kubectl" args2))) fun _ =>
    match w.run "kubectl" args2 with
    | some err => fatal [.str err]
    | none => Run.pure ()

/-- The text printed by `notifyAndPrompt` (line 157). -/
def loggedInMsg : Msg :=
  [.str "\nLogged in. Now try `", .Cyan (.str "kubectl config get-contexts"),
    .str "` to get your context or '", .Cyan (.str "kubectl get pods"),
    .str "' to get started.\n"]

/-- The function `notifyAndPrompt` (lines 156-158). -/
def notifyAndPrompt : Run Unit :=
  emit (.print loggedInMsg)

/-- The text logged for a rejected token (line 138). -/
def invalidTokenMsg (err : String) : Msg :=
  [.str "token is invalid, error: ", .str err, .str "\n"]

/-- The end of `main` (lines 135-144): verification, then the three `kubectl`
commands and the closing message. -/
def verifyAndInstall (w : World) (provider : Provider) (cluster rawToken : String) : Run Unit :=
  Run.bind (emit (.verify rawToken (w.verify provider "kubectl-login" rawToken))) fun _ =>
  match w.verify provider "kubectl-login" rawToken with
  | some err => emit (.log (invalidTokenMsg err))
  | none =>
    Run.bind (setCreds w rawToken) fun _ =>
    Run.bind (switchContext w cluster) fun _ =>
    notifyAndPrompt

/-- The OIDC part of `main` (lines 88-133) followed by its end: discovery, the
authorisation URL, the browser and the token prompt. -/
def login (w : World) (cluster : String) (config : Option Configuration) (kl : String) :
    Run Unit :=
  match config with
  | none => halt .panicked
  | some c =>
    Run.bind (emit (.newProvider c.Issuer
      (match w.newProvider c.Issuer with | .error e => some e | .ok _ => none))) fun _ =>
    match w.newProvider c.Issuer with
    | .error err => fatal [.str err]
    | .ok provider =>
      let oauth2Config : OAuth2Config :=
        { ClientID := "kubectl-login", ClientSecret := kl, RedirectURL := c.RedirectURL,
          Endpoint := provider.endpoint, Scopes := ["openid", "profile", "email", "groups"] }
      let acu := w.authCodeURL oauth2Config "some state"
      let openCmd := if w.goos = "darwin" then "open" else "sensible-browser"
      Run.bind (emit (.start openCmd [acu] (w.start openCmd [acu]))) fun _ =>
      match w.start openCmd [acu] with
      | some err => fatal [.str err]
      | none =>
        Run.bind (getToken w) fun rawToken =>
        verifyAndInstall w provider cluster rawToken

/-- The function `main` (lines 52-145). -/
def main (w : World) : Run Unit :=
  Run.bind (rawConfig w) fun rawConfigMap =>
  match w.args with
  | [] => fatal usageMsg
  | s :: _ =>
    Run.bind (resolveAlias rawConfigMap s) fun sel =>
    Run.bind (resolveSecret w sel.2) fun kl =>
    login w sel.1 sel.2 kl

/-! ## Observations on traces -/

/-- The child processes a run waited for, in order: program name and
argument list. -/
def commands : List Effect → List (String × List String)
  | [] => []
  | .run name args _ :: rest => (name, args) :: commands rest
  | _ :: rest => commands rest

/-- Whether an effect is network or child-process activity: provider
discovery, token verification, a started or awaited child process. -/
def Effect.isOutbound : Effect → Bool
  | .newProvider _ _ => true
  | .start _ _ _ => true
  | .run _ _ _ => true
  | .verify _ _ => true
  | _ => false

/-- Whether an effect reads the file system. -/
def Effect.isFileRead : Effect → Bool
  | .openFile _ _ => true
  | .readAll _ _ => true
  | _ => false

/-- Whether an effect is a failed operation other than token verification. -/
def Effect.isSetupFailure : Effect → Bool
  | .openFile _ (some _) => true
  | .readAll _ (some _) => true
  | .newProvider _ (some _) => true
  | .start _ _ (some _) => true
  | .run _ _ (some _) => true
  | .readPassword (some _) => true
  | _ => false

/-! ## Names used in the statements -/

/-- The path of the configuration file. -/
def configPath (w : World) : String := w.getenv "HOME" ++ "/.kubectl-login.json"

/-- The documented argument list of the set-credentials command. -/
def credsArgs (t : String) : List String :=
  ["config", "set-credentials", "kubectl-login", "--token=" ++ t]

/-- The documented argument list of the set-context command. -/
def contextArgs (c : String) : List String :=
  ["config", "set-context", "kubectl-login-context", "--user=kubectl-login",
    "--cluster=" ++ c, "--namespace=default"]

/-- The documented argument list of the use-context command. -/
def useArgs : List String := ["config", "use-context", "kubectl-login-context"]

/-- The effects of a run up to the moment the pasted token is handed to the
verifier, when nothing failed before. -/
def loginPrefix (w : World) (issuer openCmd url : String) : List Effect :=
  [.openFile (configPath w) none, .readAll (configPath w) none, .newProvider issuer none,
    .start openCmd [url] none, .print [.Cyan (.str "Enter token: ")], .readPassword none]

/-- The pairs of a map of records whose alias list holds the alias, in visiting
order. -/
def matching (m : List (String × Configuration)) (s : String) : List (String × Configuration) :=
  m.filter (fun e => decide (s ∈ e.2.Aliases))

/-- A run that ends before the token reaches the verifier: no command was
awaited, nothing was verified, and neither the closing message nor the
rejected-token message was written. -/
def Early (tr : List Effect) : Prop :=
  commands tr = [] ∧ (∀ t r, Effect.verify t r ∉ tr) ∧ Effect.print loggedInMsg ∉ tr ∧
    (∀ e, Effect.log (invalidTokenMsg e) ∉ tr)

/-- The configuration map the loader returns, read off the world: `none` when
the file cannot be opened, cannot be read, or does not decode. -/
def loaded (w : World) : Option ConfigMap :=
  match w.openFile (configPath w) with
  | some _ => none
  | none =>
    match w.readAll (configPath w) with
    | .error _ => none
    | .ok data =>
      match w.unmarshal data with
      | .error _ => none
      | .ok m => some m

/-- The program that opens the browser on this platform. -/
def openCommand (w : World) : String :=
  if w.goos = "darwin" then "open" else "sensible-browser"

/-- The authorisation URL for a record, a secret and a discovered provider. -/
def authURL (w : World) (c : Configuration) (kl : String) (p : Provider) : String :=
  w.authCodeURL
    { ClientID := "kubectl-login", ClientSecret := kl, RedirectURL := c.RedirectURL,
      Endpoint := p.endpoint, Scopes := ["openid", "profile", "email", "groups"] }
    "some state"

/-- The run gets past configuration, argument, alias and secret: the file
loads, there is an argument, it resolves to the cluster `k` with record `c`,
and the secret resolves to `kl`. -/
def ReachesLogin (w : World) (k : String) (c : Configuration) (kl : String) : Prop :=
  ∃ m s rest, loaded w = some m ∧ w.args = s :: rest ∧
    (resolveAlias m s).res = .ok (k, some c) ∧ (resolveSecret w (some c)).res = .ok kl

/-- The run gets as far as handing the token `t` to the verifier of provider
`p`: discovery, the browser launch and the terminal read succeeded, and `t` is
the trimmed text that was read. -/
def ReachesVerify (w : World) (k : String) (p : Provider) (t : String) : Prop :=
  ∃ c kl bytes, ReachesLogin w k c kl ∧ w.newProvider c.Issuer = .ok p ∧
    w.start (openCommand w) [authURL w c kl p] = none ∧
    w.readPassword = .ok bytes ∧ t = trimSpace bytes

/-! ## Sample worlds -/

/-- The record of the scenario in the specification, under the key `prod`. -/
def prodRecord : Configuration :=
  { Issuer := "https://idp.example.com", RedirectURL := "https://localhost/cb",
    LoginSecret := "s3cret", Cluster := "prod-cluster", Aliases := ["p", "production"] }

/-- A world in which every operation succeeds: the configuration holds
`prodRecord` under the key `prod`, the argument is `p`, the pasted token is
`tok` followed by a newline. -/
def sampleWorld : World where
  getenv := fun v => if v = "HOME" then "/home/u" else ""
  args := ["p"]
  goos := "linux"
  openFile := fun _ => none
  readAll := fun _ => .ok "data"
  unmarshal := fun _ => .ok [("prod", some prodRecord)]
  newProvider := fun i => .ok { issuer := i, endpoint := { AuthURL := "a", TokenURL := "t" } }
  authCodeURL := fun c _ => c.ClientSecret
  start := fun _ _ => none
  readPassword := .ok "tok\n"
  verify := fun _ _ _ => none
  run := fun _ _ => none

/-- The world `sampleWorld` with a `kubectl` whose set-credentials call fails. -/
def credsFailWorld : World :=
  { sampleWorld with
    run := fun _ args =>
      if args = ["config", "set-credentials", "kubectl-login", "--token=tok"]
      then some "exit status 1" else none }

/-- The world `sampleWorld` with a `kubectl` whose set-context call fails. -/
def contextFailWorld : World :=
  { sampleWorld with
    run := fun _ args =>
      if args = ["config", "set-context", "kubectl-login-context", "--user=kubectl-login",
        "--cluster=prod", "--namespace=default"]
      then some "exit status 1" else none }

/-- The world `sampleWorld` with a verifier that rejects every token. -/
def badTokenWorld : World :=
  { sampleWorld with verify := fun _ _ _ => some "oidc: malformed jwt" }

/-- The world `sampleWorld` without command-line arguments. -/
def noArgsWorld : World := { sampleWorld with args := [] }

/-- The world `sampleWorld` with the configuration `{"": prodRecord}`. -/
def emptyKeyWorld : World :=
  { sampleWorld with unmarshal := fun _ => .ok [("", some prodRecord)] }

/-- The world `sampleWorld` with the configuration `{"a": null}` and the
argument `x`. -/
def nullRecordWorld : World :=
  { sampleWorld with unmarshal := fun _ => .ok [("a", none)], args := ["x"] }

/-- A record with the secret `filesecret`. -/
def fileSecretRecord : Configuration := { prodRecord with LoginSecret := "filesecret" }

/-- A record without a secret. -/
def noSecretRecord : Configuration := { prodRecord with LoginSecret := "" }

/-- The world `sampleWorld` with `KUBELOGIN=envsecret`. -/
def envSecretWorld : World :=
  { sampleWorld with
    getenv := fun v => if v = "HOME" then "/home/u" else
      if v = "KUBELOGIN" then "envsecret" else "" }

/-- The world `sampleWorld` with a configuration whose only record has no
secret. -/
def noSecretWorld : World :=
  { sampleWorld with unmarshal := fun _ => .ok [("prod", some noSecretRecord)] }

/-- Three records; the alias `p` is in the first and in the last. -/
def sharedAliasMap : List (String × Configuration) :=
  [("east", { prodRecord with Cluster := "e", Aliases := ["p", "e"] }),
   ("mid", { prodRecord with Cluster := "m", Aliases := ["m"] }),
   ("west", { prodRecord with Cluster := "w", Aliases := ["w", "p"] })]

/-- The world `sampleWorld` with a `kubectl` whose use-context call fails. -/
def useFailWorld : World :=
  { sampleWorld with
    run := fun _ args =>
      if args = ["config", "use-context", "kubectl-login-context"]
      then some "exit status 1" else none }

/-- The world `sampleWorld` without a configuration file. -/
def noFileWorld : World :=
  { sampleWorld with openFile := fun _ => some "no such file or directory" }

/-- The world `sampleWorld` with a configuration file that cannot be read. -/
def unreadableWorld : World :=
  { sampleWorld with readAll := fun _ => .error "input/output error" }

/-- The world `sampleWorld` with a configuration file that does not decode. -/
def badJsonWorld : World :=
  { sampleWorld with unmarshal := fun _ => .error "unexpected end of JSON input" }

/-- The world `sampleWorld` with the argument `P`, which no alias list holds. -/
def unknownAliasWorld : World := { sampleWorld with args := ["P"] }

/-- The world `sampleWorld` with a provider that cannot be discovered. -/
def noProviderWorld : World :=
  { sampleWorld with newProvider := fun _ => .error "404 Not Found" }

/-- The world `sampleWorld` with a browser that cannot be started. -/
def noBrowserWorld : World :=
  { sampleWorld with start := fun _ _ => some "executable file not found in $PATH" }

/-- The world `sampleWorld` with a terminal that cannot be read. -/
def noTerminalWorld : World :=
  { sampleWorld with readPassword := .error "inappropriate ioctl for device" }

/-- The world `sampleWorld` with the configuration `{"prod": prodRecord, "a": null}`
visited in this order, and the argument `x`. -/
def nullAfterRecordWorld : World :=
  { sampleWorld with
    unmarshal := fun _ => .ok [("prod", some prodRecord), ("a", none)], args := ["x"] }

/-- The world `nullAfterRecordWorld` with the map visited in the other order. -/
def nullBeforeRecordWorld : World :=
  { sampleWorld with
    unmarshal := fun _ => .ok [("a", none), ("prod", some prodRecord)], args := ["x"] }

/-! ## Lemmas on the stages -/

/-- The loader either returns a map after exactly two successful file effects,
or ends the process with status 1 after file effects only. -/
theorem rawConfig_cases (w : World) :
    (∃ m, rawConfig w = ⟨[.openFile (configPath w) none, .readAll (configPath w) none], .ok m⟩) ∨
    (∃ tr msg, rawConfig w = ⟨tr ++ [.log msg], .error (.exited 1)⟩ ∧
        (∀ e ∈ tr, e.isFileRead = true) ∧ msg.length = 2) := by
  unfold rawConfig configPath
  simp only [Run.bind, emit, fatal, halt, Run.pure]
  split
  · right; exact ⟨[.openFile _ _], _, rfl, by simp [Effect.isFileRead], rfl⟩
  · split
    · right
      exact ⟨[.openFile _ _, .readAll _ _], _, rfl, by simp [Effect.isFileRead], rfl⟩
    · split
      · right
        exact ⟨[.openFile _ _, .readAll _ _], _, rfl, by simp [Effect.isFileRead], rfl⟩
      · left; simp [*]

theorem containsAliasLoop_eq (l : List String) (s : String) :
    containsAliasLoop l s = decide (s ∈ l) := by
  induction l with
  | nil => simp [containsAliasLoop]
  | cons a l ih =>
    by_cases h : a = s
    · simp [containsAliasLoop, h]
    · have h2 : ¬ s = a := fun e => h e.symm
      simp [containsAliasLoop, h, h2, ih]

theorem aliasLoop_ofRecords (m : List (String × Configuration)) (s : String)
    (st : String × Option Configuration) :
    aliasLoop (ofRecords m) s st =
      some (match (matching m s).getLast? with
        | some p => (p.1, some p.2)
        | none => st) := by
  induction m generalizing st with
  | nil => simp [ofRecords, aliasLoop, matching]
  | cons e m ih =>
    obtain ⟨k, c⟩ := e
    have ih2 := ih
    simp only [ofRecords] at ih2
    by_cases h : s ∈ c.Aliases
    · simp only [ofRecords, List.map_cons, aliasLoop, containsAlias, containsAliasLoop_eq, h,
        decide_True, matching, List.filter_cons, if_true]
      rw [ih2]
      simp only [matching]
      cases hl : (List.filter (fun e => decide (s ∈ e.2.Aliases)) m).getLast? with
      | none =>
        simp only [List.getLast?_eq_none_iff] at hl
        simp [hl]
      | some p =>
        rw [List.getLast?_cons]
        simp [hl]
    · simp only [ofRecords, List.map_cons, aliasLoop, containsAlias, containsAliasLoop_eq, h,
        decide_False, matching, List.filter_cons]
      rw [ih2]
      simp [matching]

theorem commands_append (a b : List Effect) : commands (a ++ b) = commands a ++ commands b := by
  induction a with
  | nil => rfl
  | cons e a ih => cases e <;> simp [commands, ih]

theorem Early.append {a b : List Effect} (ha : Early a) (hb : Early b) : Early (a ++ b) := by
  obtain ⟨a1, a2, a3, a4⟩ := ha
  obtain ⟨b1, b2, b3, b4⟩ := hb
  refine ⟨by simp [commands_append, a1, b1], ?_, ?_, ?_⟩
  · intro t r h
    rcases List.mem_append.1 h with h | h
    · exact a2 t r h
    · exact b2 t r h
  · intro h
    rcases List.mem_append.1 h with h | h
    · exact a3 h
    · exact b3 h
  · intro e h
    rcases List.mem_append.1 h with h | h
    · exact a4 e h
    · exact b4 e h

theorem early_files (w : World) :
    Early [.openFile (configPath w) none, .readAll (configPath w) none] := by
  simp [Early, commands]

/-- The OIDC part either ends the process with status 1 before verification,
or hands a token to `verifyAndInstall` after four successful effects. -/
theorem login_cases (w : World) (c : String) (r : Configuration) (kl : String) :
    (∃ tr, login w c (some r) kl = ⟨tr, .error (.exited 1)⟩ ∧ Early tr) ∨
    (∃ provider issuer openCmd url tok,
      login w c (some r) kl =
        ⟨[.newProvider issuer none, .start openCmd [url] none,
            .print [.Cyan (.str "Enter token: ")], .readPassword none] ++
          (verifyAndInstall w provider c tok).trace,
          (verifyAndInstall w provider c tok).res⟩) := by
  unfold login
  simp only
  cases hp : w.newProvider r.Issuer with
  | error err =>
    left
    refine ⟨_, by simp [fatal, emit, halt, Run.bind]; rfl, ?_⟩
    simp [Early, commands, loggedInMsg, invalidTokenMsg]
  | ok provider =>
    simp only
    generalize (if w.goos = "darwin" then "open" else "sensible-browser") = openCmd
    generalize w.authCodeURL _ _ = url
    cases hs : w.start openCmd [url] with
    | some err =>
      left
      refine ⟨_, by simp [fatal, emit, halt, Run.bind]; rfl, ?_⟩
      simp [Early, commands, loggedInMsg, invalidTokenMsg]
    | none =>
      unfold getToken
      cases hr : w.readPassword with
      | error err =>
        left
        refine ⟨_, by simp [fatal, emit, halt, Run.bind]; rfl, ?_⟩
        simp [Early, commands, loggedInMsg, invalidTokenMsg]
      | ok byteToken =>
        right
        refine ⟨provider, r.Issuer, openCmd, url, trimSpace byteToken, ?_⟩
        simp [emit, Run.bind, Run.pure]

/-- Every run of `main` has one of three shapes: it ends early with status 1,
it panics right after the configuration was read, or it reaches verification
after the six effects of `loginPrefix`. -/
theorem main_shape (w : World) :
    (∃ tr, main w = ⟨tr, .error (.exited 1)⟩ ∧ Early tr) ∨
    (main w = ⟨[.openFile (configPath w) none, .readAll (configPath w) none],
        .error .panicked⟩) ∨
    (∃ m s rest c cfg provider issuer openCmd url tok,
      (rawConfig w).res = .ok m ∧ w.args = s :: rest ∧
      aliasLoop m s ("", none) = some (c, cfg) ∧ c ≠ "" ∧
      main w = ⟨loginPrefix w issuer openCmd url ++ (verifyAndInstall w provider c tok).trace,
        (verifyAndInstall w provider c tok).res⟩) := by
  unfold main
  rcases rawConfig_cases w with ⟨m, hm⟩ | ⟨tr, msg, hm, htr, hlen⟩
  · rw [hm]
    cases hargs : w.args with
    | nil =>
      left
      refine ⟨_, rfl, ?_⟩
      simp [Early, commands, fatal, emit, halt, Run.bind, usageMsg, loggedInMsg, invalidTokenMsg]
    | cons s rest =>
      simp only [Run.bind]
      unfold resolveAlias
      cases hloop : aliasLoop m s ("", none) with
      | none => right; left; simp [halt]
      | some sel =>
        obtain ⟨c, cfg⟩ := sel
        by_cases hc : c = ""
        · left
          refine ⟨_, by simp [hc, fatal, emit, halt, Run.bind]; rfl, ?_⟩
          simp [Early, commands, aliasNotFoundMsg, loggedInMsg, invalidTokenMsg]
        · simp only [hc, if_false, Run.pure]
          unfold resolveSecret
          cases cfg with
          | none =>
            by_cases he : w.getenv "KUBELOGIN" = ""
            · right; left; simp [he, halt]
            · right; left; simp [he, Run.pure, login, halt]
          | some r =>
            have key : ∀ kl : String,
                (∃ tr, (⟨[.openFile (configPath w) none, .readAll (configPath w) none] ++
                    (login w c (some r) kl).trace, (login w c (some r) kl).res⟩ : Run Unit) =
                    ⟨tr, .error (.exited 1)⟩ ∧ Early tr) ∨
                (∃ provider issuer openCmd url tok,
                  (⟨[.openFile (configPath w) none, .readAll (configPath w) none] ++
                    (login w c (some r) kl).trace, (login w c (some r) kl).res⟩ : Run Unit) =
                    ⟨loginPrefix w issuer openCmd url ++
                      (verifyAndInstall w provider c tok).trace,
                      (verifyAndInstall w provider c tok).res⟩) := by
              intro kl
              rcases login_cases w c r kl with ⟨tr, h1, h2⟩ | ⟨p, i, o, u, t, h⟩
              · left
                rw [h1]
                exact ⟨_, rfl, (early_files w).append h2⟩
              · right
                rw [h]
                exact ⟨p, i, o, u, t, by simp [loginPrefix]⟩
            by_cases he : w.getenv "KUBELOGIN" = ""
            · by_cases hs : r.LoginSecret = ""
              · left
                refine ⟨_, by simp [he, hs, fatal, emit, halt, Run.bind]; rfl, ?_⟩
                simp [Early, commands, secretMsg, loggedInMsg, invalidTokenMsg]
              · simp only [he, hs, ne_eq, not_true_eq_false, not_false_eq_true, if_true, if_false,
                  Run.pure, List.append_nil, List.nil_append]
                rcases key r.LoginSecret with ⟨tr, h1, h2⟩ | ⟨p, i, o, u, t, h⟩
                · left; exact ⟨tr, by simpa using h1, h2⟩
                · right; right
                  exact ⟨m, s, rest, c, some r, p, i, o, u, t, by simp [hm], rfl, hloop, hc,
                    by simpa using h⟩
            · simp only [he, ne_eq, not_false_eq_true, if_true, Run.pure, List.append_nil,
                  List.nil_append]
              rcases key (w.getenv "KUBELOGIN") with ⟨tr, h1, h2⟩ | ⟨p, i, o, u, t, h⟩
              · left; exact ⟨tr, by simpa using h1, h2⟩
              · right; right
                exact ⟨m, s, rest, c, some r, p, i, o, u, t, by simp [hm], rfl, hloop, hc,
                  by simpa using h⟩
  · left
    refine ⟨tr ++ [.log msg], by simp [hm, Run.bind], ?_⟩
    refine ⟨?_, ?_, ?_, ?_⟩
    · rw [commands_append]
      have : commands tr = [] := by
        clear hm
        induction tr with
        | nil => rfl
        | cons e tr ih =>
          have he := htr e (List.mem_cons_self _ _)
          have := ih (fun x hx => htr x (List.mem_cons_of_mem _ hx))
          cases e <;> simp_all [commands, Effect.isFileRead]
      simp [this, commands]
    · intro t r h
      rcases List.mem_append.1 h with h | h
      · simpa [Effect.isFileRead] using htr _ h
      · simp at h
    · intro h
      rcases List.mem_append.1 h with h | h
      · simpa [Effect.isFileRead] using htr _ h
      · simp at h
    · intro e h
      rcases List.mem_append.1 h with h | h
      · simpa [Effect.isFileRead] using htr _ h
      · simp at h
        rw [← h] at hlen
        simp [invalidTokenMsg] at hlen

/-- The five ways the end of `main` can go. -/
theorem verifyAndInstall_cases (w : World) (p : Provider) (c t : String) :
    (∃ e, w.verify p "kubectl-login" t = some e ∧
      verifyAndInstall w p c t =
        ⟨[.verify t (some e), .log (invalidTokenMsg e)], .ok ()⟩) ∨
    (w.verify p "kubectl-login" t = none ∧ ∃ e, w.run "kubectl" (credsArgs t) = some e ∧
      verifyAndInstall w p c t =
        ⟨[.verify t none, .run "kubectl" (credsArgs t) (some e), .log [.str e]],
          .error (.exited 1)⟩) ∨
    (w.verify p "kubectl-login" t = none ∧ w.run "kubectl" (credsArgs t) = none ∧
      ∃ e, w.run "kubectl" (contextArgs c) = some e ∧
      verifyAndInstall w p c t =
        ⟨[.verify t none, .run "kubectl" (credsArgs t) none,
            .run "kubectl" (contextArgs c) (some e), .log [.str e]],
          .error (.exited 1)⟩) ∨
    (w.verify p "kubectl-login" t = none ∧ w.run "kubectl" (credsArgs t) = none ∧
      w.run "kubectl" (contextArgs c) = none ∧
      ∃ e, w.run "kubectl" useArgs = some e ∧
      verifyAndInstall w p c t =
        ⟨[.verify t none, .run "kubectl" (credsArgs t) none,
            .run "kubectl" (contextArgs c) none, .run "kubectl" useArgs (some e),
            .log [.str e]],
          .error (.exited 1)⟩) ∨
    (w.verify p "kubectl-login" t = none ∧ w.run "kubectl" (credsArgs t) = none ∧
      w.run "kubectl" (contextArgs c) = none ∧ w.run "kubectl" useArgs = none ∧
      verifyAndInstall w p c t =
        ⟨[.verify t none, .run "kubectl" (credsArgs t) none,
            .run "kubectl" (contextArgs c) none, .run "kubectl" useArgs none,
            .print loggedInMsg],
          .ok ()⟩) := by
  unfold verifyAndInstall setCreds switchContext notifyAndPrompt
  simp only [credsArgs, contextArgs, useArgs]
  cases hv : w.verify p "kubectl-login" t with
  | some e => left; exact ⟨e, rfl, by simp [emit, Run.bind]⟩
  | none =>
    right
    cases h1 : w.run "kubectl" ["config", "set-credentials", "kubectl-login", "--token=" ++ t] with
    | some e => left; exact ⟨rfl, e, rfl, by simp [emit, Run.bind, fatal, halt, h1]⟩
    | none =>
      right
      cases h2 : w.run "kubectl" ["config", "set-context", "kubectl-login-context",
        "--user=kubectl-login", "--cluster=" ++ c, "--namespace=default"] with
      | some e =>
        left
        exact ⟨rfl, rfl, e, rfl, by simp [emit, Run.bind, fatal, halt, Run.pure, h1, h2]⟩
      | none =>
        right
        cases h3 : w.run "kubectl" ["config", "use-context", "kubectl-login-context"] with
        | some e =>
          left
          exact ⟨rfl, rfl, rfl, e, rfl,
            by simp [emit, Run.bind, fatal, halt, Run.pure, h1, h2, h3]⟩
        | none =>
          right
          exact ⟨rfl, rfl, rfl, rfl, by simp [emit, Run.bind, Run.pure, h1, h2, h3]⟩

theorem resolveAlias_ok_iff (m : ConfigMap) (s c : String) (cfg : Option Configuration) :
    (resolveAlias m s).res = .ok (c, cfg) ↔
      aliasLoop m s ("", none) = some (c, cfg) ∧ c ≠ "" := by
  unfold resolveAlias
  cases h : aliasLoop m s ("", none) with
  | none => simp [halt]
  | some sel =>
    obtain ⟨c2, cfg2⟩ := sel
    by_cases hc : c2 = ""
    · subst hc
      simp only [if_true, fatal, emit, halt, Run.bind, Option.some.injEq, Prod.mk.injEq]
      constructor
      · intro h2; cases h2
      · rintro ⟨⟨h1, _⟩, h3⟩; exact absurd h1.symm h3
    · simp only [hc, if_false, Run.pure, Except.ok.injEq, Prod.mk.injEq, Option.some.injEq]
      constructor
      · rintro ⟨h1, h2⟩; subst h1; exact ⟨⟨rfl, h2⟩, hc⟩
      · rintro ⟨h1, _⟩; exact h1

/-- A run whose trace holds a verification event reached verification with
exactly that token, after a successful resolution. -/
theorem main_of_verify (w : World) (t : String) (r : Option String)
    (h : Effect.verify t r ∈ (main w).trace) :
    ∃ m s rest c cfg provider issuer openCmd url,
      (rawConfig w).res = .ok m ∧ w.args = s :: rest ∧
      (resolveAlias m s).res = .ok (c, cfg) ∧
      r = w.verify provider "kubectl-login" t ∧
      main w = ⟨loginPrefix w issuer openCmd url ++ (verifyAndInstall w provider c t).trace,
        (verifyAndInstall w provider c t).res⟩ := by
  rcases main_shape w with ⟨tr, h1, h2⟩ | h1 | ⟨m, s, rest, c, cfg, p, i, o, u, tok, hm, ha, hl, hc, hmain⟩
  · rw [h1] at h
    exact absurd h (h2.2.1 t r)
  · rw [h1] at h
    simp at h
  · rw [hmain] at h
    have hmem : Effect.verify t r ∈ (verifyAndInstall w p c tok).trace := by
      rcases List.mem_append.1 h with h | h
      · simp [loginPrefix] at h
      · exact h
    have htok : tok = t ∧ r = w.verify p "kubectl-login" t := by
      rcases verifyAndInstall_cases w p c tok with ⟨e, hv, heq⟩ | ⟨hv, e, _, heq⟩ |
        ⟨hv, _, e, _, heq⟩ | ⟨hv, _, _, e, _, heq⟩ | ⟨hv, _, _, _, heq⟩ <;>
      · rw [heq] at hmem
        simp at hmem
        obtain ⟨h1, h2⟩ := hmem
        subst h1
        exact ⟨rfl, by rw [hv, h2]⟩
    obtain ⟨h1, h2⟩ := htok
    subst h1
    exact ⟨m, s, rest, c, cfg, p, i, o, u, hm, ha, (resolveAlias_ok_iff m s c cfg).2 ⟨hl, hc⟩,
      h2, hmain⟩

theorem rawConfig_of_ok (w : World) (m : ConfigMap) (h : (rawConfig w).res = .ok m) :
    rawConfig w = ⟨[.openFile (configPath w) none, .readAll (configPath w) none], .ok m⟩ := by
  rcases rawConfig_cases w with ⟨m2, h2⟩ | ⟨tr, msg, h2, _, _⟩
  · rw [h2] at h
    cases h
    exact h2
  · rw [h2] at h
    cases h

theorem resolveAlias_of_ok (m : ConfigMap) (s : String) (x : String × Option Configuration)
    (h : (resolveAlias m s).res = .ok x) : resolveAlias m s = ⟨[], .ok x⟩ := by
  obtain ⟨c, cfg⟩ := x
  obtain ⟨h1, h2⟩ := (resolveAlias_ok_iff m s c cfg).1 h
  simp [resolveAlias, h1, h2, Run.pure]

theorem matching_eq_nil (m : List (String × Configuration)) (s : String)
    (h : ∀ e ∈ m, s ∉ e.2.Aliases) : matching m s = [] := by
  simp only [matching, List.filter_eq_nil_iff, decide_eq_true_eq]
  exact h

theorem matching_getLast_of_unique (m : List (String × Configuration)) (s : String)
    (p : String × Configuration) (hmem : p ∈ m) (hs : s ∈ p.2.Aliases)
    (huniq : ∀ e ∈ m, s ∈ e.2.Aliases → e = p) : (matching m s).getLast? = some p := by
  have hall : ∀ e ∈ matching m s, e = p := by
    intro e he
    simp only [matching, List.mem_filter, decide_eq_true_eq] at he
    exact huniq e he.1 he.2
  have hin : p ∈ matching m s := by
    simp only [matching, List.mem_filter, decide_eq_true_eq]
    exact ⟨hmem, hs⟩
  cases hl : (matching m s).getLast? with
  | none =>
    rw [List.getLast?_eq_none_iff] at hl
    rw [hl] at hin
    cases hin
  | some q =>
    rw [hall q (List.mem_of_getLast?_eq_some hl)]

theorem rawConfig_of_loaded (w : World) (m : ConfigMap) (h : loaded w = some m) :
    rawConfig w = ⟨[.openFile (configPath w) none, .readAll (configPath w) none], .ok m⟩ := by
  unfold loaded at h
  unfold rawConfig
  simp only [configPath] at h ⊢
  simp only [Run.bind, emit, fatal, halt, Run.pure]
  split at h
  · cases h
  · split at h
    · cases h
    · split at h
      · cases h
      · cases h
        simp [*]

theorem rawConfig_of_not_loaded (w : World) (h : loaded w = none) :
    ∃ tr, rawConfig w = ⟨tr, .error (.exited 1)⟩ := by
  rcases rawConfig_cases w with ⟨m, hm⟩ | ⟨tr, msg, hm, _, _⟩
  · exfalso
    unfold loaded at h
    unfold rawConfig at hm
    simp only [configPath] at h hm
    simp only [Run.bind, emit, fatal, halt, Run.pure] at hm
    split at h
    · simp [*] at hm
    · split at h
      · simp [*] at hm
      · split at h
        · simp [*] at hm
        · cases h
  · exact ⟨_, hm⟩

theorem resolveSecret_of_ok (w : World) (c : Configuration) (kl : String)
    (h : (resolveSecret w (some c)).res = .ok kl) : resolveSecret w (some c) = ⟨[], .ok kl⟩ := by
  unfold resolveSecret at h ⊢
  by_cases he : w.getenv "KUBELOGIN" = ""
  · by_cases hs : c.LoginSecret = ""
    · simp [he, hs, fatal, emit, halt, Run.bind] at h
    · simp only [he, hs, ne_eq, not_true_eq_false, not_false_eq_true, if_true, if_false,
        Run.pure] at h ⊢
      cases h
      rfl
  · simp only [he, ne_eq, not_false_eq_true, if_true, Run.pure] at h ⊢
    cases h
    rfl

theorem main_of_selected (w : World) (m : ConfigMap) (s : String) (rest : List String)
    (k : String) (c : Configuration) (hm : loaded w = some m) (hargs : w.args = s :: rest)
    (hsel : (resolveAlias m s).res = .ok (k, some c)) :
    main w = Run.bind ⟨[.openFile (configPath w) none, .readAll (configPath w) none], .ok ()⟩
      (fun _ => Run.bind (resolveSecret w (some c)) (fun kl => login w k (some c) kl)) := by
  unfold main
  rw [rawConfig_of_loaded w m hm, hargs]
  simp [Run.bind, resolveAlias_of_ok m s _ hsel]

theorem main_of_reachesLogin (w : World) (k : String) (c : Configuration) (kl : String)
    (h : ReachesLogin w k c kl) :
    main w = ⟨[.openFile (configPath w) none, .readAll (configPath w) none] ++
      (login w k (some c) kl).trace, (login w k (some c) kl).res⟩ := by
  obtain ⟨m, s, rest, hm, hargs, hsel, hsec⟩ := h
  rw [main_of_selected w m s rest k c hm hargs hsel, resolveSecret_of_ok w c kl hsec]
  simp [Run.bind]

theorem main_of_reachesVerify (w : World) (k : String) (p : Provider) (t : String)
    (h : ReachesVerify w k p t) :
    ∃ i o u, main w = ⟨loginPrefix w i o u ++ (verifyAndInstall w p k t).trace,
      (verifyAndInstall w p k t).res⟩ := by
  obtain ⟨c, kl, bytes, hl, hp, hs, hr, ht⟩ := h
  refine ⟨c.Issuer, openCommand w, authURL w c kl p, ?_⟩
  rw [main_of_reachesLogin w k c kl hl]
  simp only [openCommand, authURL] at hs
  subst ht
  simp [login, hp, hs, getToken, hr, emit, Run.bind, Run.pure, loginPrefix, openCommand, authURL]

theorem aliasLoop_of_no_match (m : ConfigMap) (s : String)
    (st : String × Option Configuration)
    (h : ∀ e ∈ m, ∀ c, e.2 = some c → s ∉ c.Aliases) :
    aliasLoop m s st = none ∨ aliasLoop m s st = some st := by
  induction m with
  | nil => right; rfl
  | cons e m ih =>
    obtain ⟨k, v⟩ := e
    cases v with
    | none => left; simp [aliasLoop, containsAlias]
    | some c =>
      have hc : s ∉ c.Aliases := h (k, some c) (List.mem_cons_self _ _) c rfl
      simp only [aliasLoop, containsAlias, containsAliasLoop_eq, hc, decide_False]
      exact ih (fun e he => h e (List.mem_cons_of_mem _ he))

theorem aliasLoop_of_records_no_match (m : ConfigMap) (s : String)
    (st : String × Option Configuration)
    (h : ∀ e ∈ m, ∃ c, e.2 = some c ∧ s ∉ c.Aliases) :
    aliasLoop m s st = some st := by
  induction m with
  | nil => rfl
  | cons e m ih =>
    obtain ⟨k, v⟩ := e
    obtain ⟨c, hv, hc⟩ := h (k, v) (List.mem_cons_self _ _)
    simp only at hv
    subst hv
    simp only [aliasLoop, containsAlias, containsAliasLoop_eq, hc, decide_False]
    exact ih (fun e he => h e (List.mem_cons_of_mem _ he))

/-- For every configuration map of records and every alias that no
entry's alias list contains, the run is the two reads of the configuration
file followed by the fatal alias-not-found log, which names the alias, and
`os.Exit(1)`; no cluster is selected and there is no discovery, browser launch,
verification or command. -/
theorem unknown_alias_of_records (w : World) (m : List (String × Configuration))
    (s : String) (rest : List String)
    (hm : (rawConfig w).res = .ok (ofRecords m)) (hargs : w.args = s :: rest)
    (hno : ∀ e ∈ m, s ∉ e.2.Aliases) :
    aliasLoop (ofRecords m) s ("", none) = some ("", none) ∧
    resolveAlias (ofRecords m) s = ⟨[.log (aliasNotFoundMsg s)], .error (.exited 1)⟩ ∧
    main w =
      ⟨[.openFile (configPath w) none, .readAll (configPath w) none,
        .log (aliasNotFoundMsg s)], .error (.exited 1)⟩ ∧
    Value.Bold (.Cyan (.str s)) ∈ aliasNotFoundMsg s ∧
    (∀ e ∈ (main w).trace, e.isOutbound = false) ∧ commands (main w).trace = [] := by
  have hloop : aliasLoop (ofRecords m) s ("", none) = some ("", none) := by
    rw [aliasLoop_ofRecords, matching_eq_nil m s hno]
    rfl
  have hres : resolveAlias (ofRecords m) s =
      ⟨[.log (aliasNotFoundMsg s)], .error (.exited 1)⟩ := by
    simp [resolveAlias, hloop, fatal, emit, halt, Run.bind]
  have hmain : main w =
      ⟨[.openFile (configPath w) none, .readAll (configPath w) none,
        .log (aliasNotFoundMsg s)], .error (.exited 1)⟩ := by
    unfold main
    rw [rawConfig_of_ok w _ hm, hargs]
    simp [Run.bind, hres]
  refine ⟨hloop, hres, hmain, by simp [aliasNotFoundMsg], ?_, ?_⟩
  · rw [hmain]
    simp [Effect.isOutbound]
  · rw [hmain]
    simp [commands]

/-! ## The claims -/

/-- Claim C1, as stated, fails: the verifier accepts the token `tok` for the
resolved cluster `prod`, the set-credentials call fails, and `kubectl` was run
once, not three times. -/
theorem C1_counterexample :
    (resolveAlias [("prod", some prodRecord)] "p").res = .ok ("prod", some prodRecord) ∧
    Effect.verify "tok" none ∈ (main credsFailWorld).trace ∧
    commands (main credsFailWorld).trace = [("kubectl", credsArgs "tok")] ∧
    commands (main credsFailWorld).trace ≠
      [("kubectl", credsArgs "tok"), ("kubectl", contextArgs "prod"), ("kubectl", useArgs)] := by
  decide

/-- Claim C1, amended: for every resolved cluster name `c` (the key of the
selected entry) and every token `t` the verifier accepts, if the
set-credentials and set-context calls return without error, the commands the
run waits for are exactly the three documented `kubectl` calls, in order. -/
theorem C1_three_commands (w : World) (m : ConfigMap) (s : String) (rest : List String)
    (c : String) (cfg : Option Configuration) (t : String)
    (hm : (rawConfig w).res = .ok m) (hargs : w.args = s :: rest)
    (hsel : (resolveAlias m s).res = .ok (c, cfg))
    (hv : Effect.verify t none ∈ (main w).trace)
    (h1 : w.run "kubectl" (credsArgs t) = none)
    (h2 : w.run "kubectl" (contextArgs c) = none) :
    commands (main w).trace =
      [("kubectl", ["config", "set-credentials", "kubectl-login", "--token=" ++ t]),
       ("kubectl", ["config", "set-context", "kubectl-login-context", "--user=kubectl-login",
          "--cluster=" ++ c, "--namespace=default"]),
       ("kubectl", ["config", "use-context", "kubectl-login-context"])] := by
  obtain ⟨m2, s2, rest2, c2, cfg2, p, i, o, u, hm2, ha2, hsel2, hr, hmain⟩ :=
    main_of_verify w t none hv
  rw [hm] at hm2
  rw [hargs] at ha2
  cases hm2
  cases ha2
  rw [hsel] at hsel2
  cases hsel2
  rw [hmain]
  rcases verifyAndInstall_cases w p c t with ⟨e, hv, _⟩ | ⟨_, e, hc, _⟩ |
    ⟨_, _, e, hc, _⟩ | ⟨_, _, _, e, _, heq⟩ | ⟨_, _, _, _, heq⟩
  · rw [hv] at hr; cases hr
  · rw [hc] at h1; cases h1
  · rw [hc] at h2; cases h2
  · rw [heq]; simp [commands_append, commands, loginPrefix, credsArgs, contextArgs, useArgs]
  · rw [heq]; simp [commands_append, commands, loginPrefix, credsArgs, contextArgs, useArgs]

/-- The amended claim C1 at the scenario of the specification: the key is
`prod`, the record's `cluster` field is `prod-cluster`, and the commands carry
`--cluster=prod`. -/
theorem C1_three_commands_witness :
    prodRecord.Cluster = "prod-cluster" ∧
    commands (main sampleWorld).trace =
      [("kubectl", ["config", "set-credentials", "kubectl-login", "--token=tok"]),
       ("kubectl", ["config", "set-context", "kubectl-login-context", "--user=kubectl-login",
          "--cluster=prod", "--namespace=default"]),
       ("kubectl", ["config", "use-context", "kubectl-login-context"])] :=
  ⟨rfl, C1_three_commands sampleWorld [("prod", some prodRecord)] "p" [] "prod"
    (some prodRecord) "tok" (by decide) (by decide) (by decide) (by decide) (by decide)
    (by decide)⟩

/-- Claim C2: when token verification returns an error, `main` logs the
rejected-token message as its last effect and returns (exit status 0, not the
fatal path) and no command was awaited; every other failure ends the process
with a non-zero status: a configuration file that does not load, a missing
argument, an unknown alias, a missing secret, a failed discovery, a failed
browser launch, a failed terminal read, and a failed `kubectl` call (each of
the three).  Conversely a run ends with status 0 only after a rejected token or
after the closing message of a full success. -/
theorem C2_rejected_token_is_soft (w : World) :
    (∀ k p t e, ReachesVerify w k p t → w.verify p "kubectl-login" t = some e →
      (main w).res = .ok () ∧ (main w).status = .exited 0 ∧ commands (main w).trace = [] ∧
      (main w).trace.getLast? = some (.log (invalidTokenMsg e))) ∧
    (∀ t e, Effect.verify t (some e) ∈ (main w).trace →
      (main w).res = .ok () ∧ (main w).status = .exited 0 ∧ commands (main w).trace = [] ∧
      (main w).trace.getLast? = some (.log (invalidTokenMsg e))) ∧
    (loaded w = none → (main w).status = .exited 1) ∧
    (∀ m, loaded w = some m → w.args = [] → (main w).status = .exited 1) ∧
    (∀ m s rest, loaded w = some m → w.args = s :: rest →
      (∀ e ∈ m, ∀ c, e.2 = some c → s ∉ c.Aliases) → (main w).status.code ≠ 0) ∧
    (∀ m s rest, loaded w = some m → w.args = s :: rest →
      (∀ e ∈ m, ∃ c, e.2 = some c ∧ s ∉ c.Aliases) → (main w).status = .exited 1) ∧
    (∀ m s rest k c, loaded w = some m → w.args = s :: rest →
      (resolveAlias m s).res = .ok (k, some c) →
      w.getenv "KUBELOGIN" = "" → c.LoginSecret = "" → (main w).status = .exited 1) ∧
    (∀ k c kl e, ReachesLogin w k c kl → w.newProvider c.Issuer = .error e →
      (main w).status = .exited 1) ∧
    (∀ k c kl p e, ReachesLogin w k c kl → w.newProvider c.Issuer = .ok p →
      w.start (openCommand w) [authURL w c kl p] = some e → (main w).status = .exited 1) ∧
    (∀ k c kl p e, ReachesLogin w k c kl → w.newProvider c.Issuer = .ok p →
      w.start (openCommand w) [authURL w c kl p] = none → w.readPassword = .error e →
      (main w).status = .exited 1) ∧
    (∀ k p t e, ReachesVerify w k p t → w.verify p "kubectl-login" t = none →
      w.run "kubectl" (credsArgs t) = some e → (main w).status = .exited 1) ∧
    (∀ k p t e, ReachesVerify w k p t → w.verify p "kubectl-login" t = none →
      w.run "kubectl" (credsArgs t) = none → w.run "kubectl" (contextArgs k) = some e →
      (main w).status = .exited 1) ∧
    (∀ k p t e, ReachesVerify w k p t → w.verify p "kubectl-login" t = none →
      w.run "kubectl" (credsArgs t) = none → w.run "kubectl" (contextArgs k) = none →
      w.run "kubectl" useArgs = some e → (main w).status = .exited 1) ∧
    (∀ ev ∈ (main w).trace, ev.isSetupFailure = true → (main w).status = .exited 1) ∧
    (∀ msg, Effect.log msg ∈ (main w).trace → (∀ e, msg ≠ invalidTokenMsg e) →
      (main w).status = .exited 1) ∧
    ((main w).status.code = 0 →
      (∃ t e, Effect.verify t (some e) ∈ (main w).trace) ∨
      ((main w).trace.getLast? = some (.print loggedInMsg) ∧
        (commands (main w).trace).length = 3 ∧
        ∀ ev ∈ (main w).trace, ev.isSetupFailure = false)) := by
  have hcli : ∀ k p t, ReachesVerify w k p t → w.verify p "kubectl-login" t = none →
      (∃ e, w.run "kubectl" (credsArgs t) = some e ∨
        (w.run "kubectl" (credsArgs t) = none ∧ w.run "kubectl" (contextArgs k) = some e) ∨
        (w.run "kubectl" (credsArgs t) = none ∧ w.run "kubectl" (contextArgs k) = none ∧
          w.run "kubectl" useArgs = some e)) → (main w).status = .exited 1 := by
    intro k p t hr hv hfail
    obtain ⟨i, o, u, hmain⟩ := main_of_reachesVerify w k p t hr
    rw [hmain]
    rcases verifyAndInstall_cases w p k t with ⟨e, hv2, _⟩ | ⟨_, e, _, heq⟩ |
      ⟨_, _, e, _, heq⟩ | ⟨_, _, _, e, _, heq⟩ | ⟨_, h1, h2, h3, _⟩
    · rw [hv] at hv2; cases hv2
    · rw [heq]; rfl
    · rw [heq]; rfl
    · rw [heq]; rfl
    · obtain ⟨e, he | ⟨_, he⟩ | ⟨_, _, he⟩⟩ := hfail
      · rw [h1] at he; cases he
      · rw [h2] at he; cases he
      · rw [h3] at he; cases he
  have hsoft : ∀ t e, Effect.verify t (some e) ∈ (main w).trace →
      (main w).res = .ok () ∧ (main w).status = .exited 0 ∧ commands (main w).trace = [] ∧
      (main w).trace.getLast? = some (.log (invalidTokenMsg e)) := by
    intro t e h
    obtain ⟨m, s, rest, c, cfg, p, i, o, u, _, _, _, hr, hmain⟩ := main_of_verify w t _ h
    rw [hmain]
    rcases verifyAndInstall_cases w p c t with ⟨e2, hv, heq⟩ | ⟨hv, _⟩ |
      ⟨hv, _⟩ | ⟨hv, _⟩ | ⟨hv, _⟩
    · rw [hv] at hr
      cases hr
      rw [heq]
      simp [Run.status, loginPrefix, commands]
    all_goals
      rw [hv] at hr
      cases hr
  refine ⟨?_, hsoft, ?_, ?_, ?_, ?_, ?_, ?_, ?_, ?_, ?_, ?_, ?_, ?_⟩
  · intro k p t e hr hv
    obtain ⟨i, o, u, hmain⟩ := main_of_reachesVerify w k p t hr
    apply hsoft t e
    rw [hmain]
    rcases verifyAndInstall_cases w p k t with ⟨e2, hv2, heq⟩ | ⟨hv2, _⟩ |
      ⟨hv2, _⟩ | ⟨hv2, _⟩ | ⟨hv2, _⟩
    · rw [hv] at hv2
      cases hv2
      rw [heq]
      simp
    all_goals
      rw [hv] at hv2
      cases hv2
  · intro h
    obtain ⟨tr, htr⟩ := rawConfig_of_not_loaded w h
    unfold main
    rw [htr]
    rfl
  · intro m hm hargs
    unfold main
    rw [rawConfig_of_loaded w m hm, hargs]
    rfl
  · intro m s rest hm hargs hno
    unfold main
    rw [rawConfig_of_loaded w m hm, hargs]
    rcases aliasLoop_of_no_match m s ("", none) hno with h | h
    · simp [Run.bind, resolveAlias, h, halt, Run.status, Status.code]
    · simp [Run.bind, resolveAlias, h, halt, fatal, emit, Run.status, Status.code]
  · intro m s rest hm hargs hno
    unfold main
    rw [rawConfig_of_loaded w m hm, hargs]
    simp [Run.bind, resolveAlias, aliasLoop_of_records_no_match m s ("", none) hno, halt,
      fatal, emit, Run.status]
  · intro m s rest k c hm hargs hsel he hs
    rw [main_of_selected w m s rest k c hm hargs hsel]
    simp [Run.bind, resolveSecret, he, hs, fatal, emit, halt, Run.status]
  · intro k c kl e hl hp
    rw [main_of_reachesLogin w k c kl hl]
    simp [login, hp, fatal, emit, halt, Run.bind, Run.status]
  · intro k c kl p e hl hp hs
    rw [main_of_reachesLogin w k c kl hl]
    simp only [openCommand, authURL] at hs
    simp [login, hp, hs, fatal, emit, halt, Run.bind, Run.status]
  · intro k c kl p e hl hp hs hr
    rw [main_of_reachesLogin w k c kl hl]
    simp only [openCommand, authURL] at hs
    simp [login, hp, hs, getToken, hr, fatal, emit, halt, Run.bind, Run.status]
  · intro k p t e hr hv h1
    exact hcli k p t hr hv ⟨e, Or.inl h1⟩
  · intro k p t e hr hv h1 h2
    exact hcli k p t hr hv ⟨e, Or.inr (Or.inl ⟨h1, h2⟩)⟩
  · intro k p t e hr hv h1 h2 h3
    exact hcli k p t hr hv ⟨e, Or.inr (Or.inr ⟨h1, h2, h3⟩)⟩
  · rcases main_shape w with ⟨tr, h1, h2⟩ | h1 |
      ⟨m, s, rest, c, cfg, p, i, o, u, tok, hm, ha, hl, hc, hmain⟩
    · rw [h1]
      refine ⟨fun _ _ _ => rfl, fun _ _ _ => rfl, ?_⟩
      simp [Run.status, Status.code]
    · rw [h1]
      refine ⟨?_, ?_, ?_⟩ <;> simp [Run.status, Status.code, Effect.isSetupFailure]
    · rw [hmain]
      rcases verifyAndInstall_cases w p c tok with ⟨e, _, heq⟩ | ⟨_, e, _, heq⟩ |
        ⟨_, _, e, _, heq⟩ | ⟨_, _, _, e, _, heq⟩ | ⟨_, _, _, _, heq⟩ <;>
      · rw [heq]
        refine ⟨?_, ?_, ?_⟩ <;>
          simp [Run.status, Status.code, Effect.isSetupFailure, loginPrefix, commands,
            invalidTokenMsg, loggedInMsg]

/-- Claim C2 at one run for each way of failing: a rejected token ends with
status 0 and no command; a missing, unreadable or undecodable configuration
file, a missing argument, an unknown alias, a missing secret, a failed
discovery, browser launch or terminal read, and a failed set-credentials,
set-context or use-context call each end with status 1. -/
theorem C2_rejected_token_is_soft_witness :
    ((main badTokenWorld).res = .ok () ∧ (main badTokenWorld).status = .exited 0 ∧
      commands (main badTokenWorld).trace = [] ∧
      (main badTokenWorld).trace.getLast? =
        some (.log (invalidTokenMsg "oidc: malformed jwt"))) ∧
    (main noFileWorld).status = .exited 1 ∧
    (main unreadableWorld).status = .exited 1 ∧
    (main badJsonWorld).status = .exited 1 ∧
    (main noArgsWorld).status = .exited 1 ∧
    (main unknownAliasWorld).status = .exited 1 ∧
    (main noSecretWorld).status = .exited 1 ∧
    (main noProviderWorld).status = .exited 1 ∧
    (main noBrowserWorld).status = .exited 1 ∧
    (main noTerminalWorld).status = .exited 1 ∧
    (main credsFailWorld).status = .exited 1 ∧
    (main contextFailWorld).status = .exited 1 ∧
    (main useFailWorld).status = .exited 1 :=
  ⟨(C2_rejected_token_is_soft badTokenWorld).1 "prod"
      { issuer := "https://idp.example.com", endpoint := { AuthURL := "a", TokenURL := "t" } }
      "tok" "oidc: malformed jwt"
      ⟨prodRecord, "s3cret", "tok\n",
        ⟨[("prod", some prodRecord)], "p", [], by decide, by decide, by decide, by decide⟩,
        by decide, by decide, by decide, by decide⟩
      (by decide),
   (C2_rejected_token_is_soft noFileWorld).2.2.1 (by decide),
   (C2_rejected_token_is_soft unreadableWorld).2.2.1 (by decide),
   (C2_rejected_token_is_soft badJsonWorld).2.2.1 (by decide),
   (C2_rejected_token_is_soft noArgsWorld).2.2.2.1 [("prod", some prodRecord)]
      (by decide) (by decide),
   (C2_rejected_token_is_soft unknownAliasWorld).2.2.2.2.2.1 [("prod", some prodRecord)]
      "P" [] (by decide) (by decide)
      (by
        intro e he
        simp only [List.mem_singleton] at he
        subst he
        exact ⟨prodRecord, rfl, by decide⟩),
   (C2_rejected_token_is_soft noSecretWorld).2.2.2.2.2.2.1 [("prod", some noSecretRecord)]
      "p" [] "prod" noSecretRecord (by decide) (by decide) (by decide) (by decide)
      (by decide),
   (C2_rejected_token_is_soft noProviderWorld).2.2.2.2.2.2.2.1 "prod" prodRecord "s3cret"
      "404 Not Found"
      ⟨[("prod", some prodRecord)], "p", [], by decide, by decide, by decide, by decide⟩
      (by decide),
   (C2_rejected_token_is_soft noBrowserWorld).2.2.2.2.2.2.2.2.1 "prod" prodRecord "s3cret"
      { issuer := "https://idp.example.com", endpoint := { AuthURL := "a", TokenURL := "t" } }
      "executable file not found in $PATH"
      ⟨[("prod", some prodRecord)], "p", [], by decide, by decide, by decide, by decide⟩
      (by decide) (by decide),
   (C2_rejected_token_is_soft noTerminalWorld).2.2.2.2.2.2.2.2.2.1 "prod" prodRecord "s3cret"
      { issuer := "https://idp.example.com", endpoint := { AuthURL := "a", TokenURL := "t" } }
      "inappropriate ioctl for device"
      ⟨[("prod", some prodRecord)], "p", [], by decide, by decide, by decide, by decide⟩
      (by decide) (by decide) (by decide),
   (C2_rejected_token_is_soft credsFailWorld).2.2.2.2.2.2.2.2.2.2.1 "prod"
      { issuer := "https://idp.example.com", endpoint := { AuthURL := "a", TokenURL := "t" } }
      "tok" "exit status 1"
      ⟨prodRecord, "s3cret", "tok\n",
        ⟨[("prod", some prodRecord)], "p", [], by decide, by decide, by decide, by decide⟩,
        by decide, by decide, by decide, by decide⟩
      (by decide) (by decide),
   (C2_rejected_token_is_soft contextFailWorld).2.2.2.2.2.2.2.2.2.2.2.1 "prod"
      { issuer := "https://idp.example.com", endpoint := { AuthURL := "a", TokenURL := "t" } }
      "tok" "exit status 1"
      ⟨prodRecord, "s3cret", "tok\n",
        ⟨[("prod", some prodRecord)], "p", [], by decide, by decide, by decide, by decide⟩,
        by decide, by decide, by decide, by decide⟩
      (by decide) (by decide) (by decide),
   (C2_rejected_token_is_soft useFailWorld).2.2.2.2.2.2.2.2.2.2.2.2.1 "prod"
      { issuer := "https://idp.example.com", endpoint := { AuthURL := "a", TokenURL := "t" } }
      "tok" "exit status 1"
      ⟨prodRecord, "s3cret", "tok\n",
        ⟨[("prod", some prodRecord)], "p", [], by decide, by decide, by decide, by decide⟩,
        by decide, by decide, by decide, by decide⟩
      (by decide) (by decide) (by decide) (by decide)⟩

/-- Claim C8: for every resolved cluster name and verified token, a failing
`kubectl` call is the last command of the run, is followed only by the fatal
log and `os.Exit(1)`, and the closing message is not printed: after a failed
set-credentials nothing else is run; after a failed set-context neither
use-context nor any other command is run; the same holds for use-context. -/
theorem C8_failure_is_fatal (w : World) (m : ConfigMap) (s : String) (rest : List String)
    (c : String) (cfg : Option Configuration) (t : String)
    (hm : (rawConfig w).res = .ok m) (hargs : w.args = s :: rest)
    (hsel : (resolveAlias m s).res = .ok (c, cfg))
    (hv : Effect.verify t none ∈ (main w).trace) :
    (∀ e, w.run "kubectl" (credsArgs t) = some e →
      commands (main w).trace = [("kubectl", credsArgs t)] ∧
      (main w).status = .exited 1 ∧ Effect.print loggedInMsg ∉ (main w).trace ∧
      (main w).trace.getLast? = some (.log [.str e])) ∧
    (w.run "kubectl" (credsArgs t) = none → ∀ e, w.run "kubectl" (contextArgs c) = some e →
      commands (main w).trace = [("kubectl", credsArgs t), ("kubectl", contextArgs c)] ∧
      (main w).status = .exited 1 ∧ Effect.print loggedInMsg ∉ (main w).trace ∧
      (main w).trace.getLast? = some (.log [.str e])) ∧
    (w.run "kubectl" (credsArgs t) = none → w.run "kubectl" (contextArgs c) = none →
      ∀ e, w.run "kubectl" useArgs = some e →
      commands (main w).trace =
        [("kubectl", credsArgs t), ("kubectl", contextArgs c), ("kubectl", useArgs)] ∧
      (main w).status = .exited 1 ∧ Effect.print loggedInMsg ∉ (main w).trace ∧
      (main w).trace.getLast? = some (.log [.str e])) := by
  obtain ⟨m2, s2, rest2, c2, cfg2, p, i, o, u, hm2, ha2, hsel2, hr, hmain⟩ :=
    main_of_verify w t none hv
  rw [hm] at hm2
  rw [hargs] at ha2
  cases hm2
  cases ha2
  rw [hsel] at hsel2
  cases hsel2
  rw [hmain]
  have hcmd : commands (loginPrefix w i o u) = [] := rfl
  have hlast : ∀ (tl : List Effect) (x : Effect),
      (loginPrefix w i o u ++ (tl ++ [x])).getLast? = some x := by
    intro tl x
    rw [← List.append_assoc, List.getLast?_append]
    rfl
  have hpre : Effect.print loggedInMsg ∉ loginPrefix w i o u := by
    simp [loginPrefix, loggedInMsg]
  rcases verifyAndInstall_cases w p c t with ⟨e, hv, _⟩ | ⟨_, e, hc, heq⟩ |
    ⟨_, h1, e, hc, heq⟩ | ⟨_, h1, h2, e, hc, heq⟩ | ⟨_, h1, h2, h3, heq⟩
  · rw [hv] at hr; cases hr
  · rw [heq]
    refine ⟨?_, ?_, ?_⟩
    · intro e2 he2
      rw [hc] at he2
      cases he2
      refine ⟨by simp [commands_append, hcmd, commands], rfl, ?_,
        hlast [.verify t none, .run "kubectl" (credsArgs t) (some e)] _⟩
      intro hmem
      rcases List.mem_append.1 hmem with h | h
      · exact hpre h
      · simp at h
    · intro h; rw [hc] at h; cases h
    · intro h; rw [hc] at h; cases h
  · rw [heq]
    refine ⟨?_, ?_, ?_⟩
    · intro e2 he2; rw [h1] at he2; cases he2
    · intro _ e2 he2
      rw [hc] at he2
      cases he2
      refine ⟨by simp [commands_append, hcmd, commands], rfl, ?_,
        hlast [.verify t none, .run "kubectl" (credsArgs t) none,
          .run "kubectl" (contextArgs c) (some e)] _⟩
      intro hmem
      rcases List.mem_append.1 hmem with h | h
      · exact hpre h
      · simp at h
    · intro _ h; rw [hc] at h; cases h
  · rw [heq]
    refine ⟨?_, ?_, ?_⟩
    · intro e2 he2; rw [h1] at he2; cases he2
    · intro _ e2 he2; rw [h2] at he2; cases he2
    · intro _ _ e2 he2
      rw [hc] at he2
      cases he2
      refine ⟨by simp [commands_append, hcmd, commands], rfl, ?_,
        hlast [.verify t none, .run "kubectl" (credsArgs t) none,
          .run "kubectl" (contextArgs c) none, .run "kubectl" useArgs (some e)] _⟩
      intro hmem
      rcases List.mem_append.1 hmem with h | h
      · exact hpre h
      · simp at h
  · refine ⟨?_, ?_, ?_⟩
    · intro e2 he2; rw [h1] at he2; cases he2
    · intro _ e2 he2; rw [h2] at he2; cases he2
    · intro _ _ e2 he2; rw [h3] at he2; cases he2

/-- Claim C8 at two runs: one whose set-credentials call fails, one whose
set-context call fails after a successful set-credentials. -/
theorem C8_failure_is_fatal_witness :
    (commands (main credsFailWorld).trace = [("kubectl", credsArgs "tok")] ∧
      (main credsFailWorld).status = .exited 1 ∧
      Effect.print loggedInMsg ∉ (main credsFailWorld).trace ∧
      (main credsFailWorld).trace.getLast? = some (.log [.str "exit status 1"])) ∧
    (commands (main contextFailWorld).trace =
        [("kubectl", credsArgs "tok"), ("kubectl", contextArgs "prod")] ∧
      (main contextFailWorld).status = .exited 1 ∧
      Effect.print loggedInMsg ∉ (main contextFailWorld).trace ∧
      (main contextFailWorld).trace.getLast? = some (.log [.str "exit status 1"])) :=
  ⟨(C8_failure_is_fatal credsFailWorld [("prod", some prodRecord)] "p" [] "prod"
      (some prodRecord) "tok" (by decide) (by decide) (by decide) (by decide)).1
      "exit status 1" (by decide),
   (C8_failure_is_fatal contextFailWorld [("prod", some prodRecord)] "p" [] "prod"
      (some prodRecord) "tok" (by decide) (by decide) (by decide) (by decide)).2.1
      (by decide) "exit status 1" (by decide)⟩

/-- Claim C3, as stated, fails: in the one-entry configuration `{"": prodRecord}`
the alias `p` occurs in exactly one entry, and resolution ends in the
alias-not-found failure. -/
theorem C3_counterexample :
    (rawConfig emptyKeyWorld).res = .ok (ofRecords [("", prodRecord)]) ∧
    emptyKeyWorld.args = ["p"] ∧ "p" ∈ prodRecord.Aliases ∧
    resolveAlias (ofRecords [("", prodRecord)]) "p" =
      ⟨[.log (aliasNotFoundMsg "p")], .error (.exited 1)⟩ ∧
    main emptyKeyWorld =
      ⟨[.openFile "/home/u/.kubectl-login.json" none,
        .readAll "/home/u/.kubectl-login.json" none, .log (aliasNotFoundMsg "p")],
        .error (.exited 1)⟩ := by
  decide

/-- Claim C3, amended: for every configuration map of records and every alias
that occurs in the alias list of exactly one entry, if that entry's cluster
name is not the empty string, alias resolution returns without any effect
and selects that entry's key together with its record. -/
theorem C3_unique_alias_resolves (m : List (String × Configuration)) (s k : String)
    (c : Configuration) (hmem : (k, c) ∈ m) (hs : s ∈ c.Aliases)
    (huniq : ∀ e ∈ m, s ∈ e.2.Aliases → e = (k, c)) (hk : k ≠ "") :
    resolveAlias (ofRecords m) s = ⟨[], .ok (k, some c)⟩ := by
  have h := aliasLoop_ofRecords m s ("", none)
  rw [matching_getLast_of_unique m s (k, c) hmem hs huniq] at h
  simp [resolveAlias, h, hk, Run.pure]

/-- The amended claim C3 on a three-entry map: the alias `m` is in the middle
entry only. -/
theorem C3_unique_alias_resolves_witness :
    resolveAlias (ofRecords sharedAliasMap) "m" =
      ⟨[], .ok ("mid", some { prodRecord with Cluster := "m", Aliases := ["m"] })⟩ :=
  C3_unique_alias_resolves sharedAliasMap "m" "mid"
    { prodRecord with Cluster := "m", Aliases := ["m"] } (by decide) (by decide) (by decide)
    (by decide)

/-- Claim C4: for every selected record, a non-empty `KUBELOGIN` is the
resolved secret whatever the record's `loginSecret` is, and with an empty or
unset `KUBELOGIN` a non-empty `loginSecret` is the resolved secret. -/
theorem C4_secret_precedence (w : World) (c : Configuration) :
    (w.getenv "KUBELOGIN" ≠ "" →
      resolveSecret w (some c) = ⟨[], .ok (w.getenv "KUBELOGIN")⟩) ∧
    (w.getenv "KUBELOGIN" = "" → c.LoginSecret ≠ "" →
      resolveSecret w (some c) = ⟨[], .ok c.LoginSecret⟩) := by
  constructor
  · intro h
    simp [resolveSecret, h, Run.pure]
  · intro h1 h2
    simp [resolveSecret, h1, h2, Run.pure]

/-- Claim C4 at the example of the specification: environment `envsecret` and
file `filesecret` give `envsecret`; without the environment variable the
result is `filesecret`. -/
theorem C4_secret_precedence_witness :
    resolveSecret envSecretWorld (some fileSecretRecord) = ⟨[], .ok "envsecret"⟩ ∧
    resolveSecret sampleWorld (some fileSecretRecord) = ⟨[], .ok "filesecret"⟩ :=
  ⟨(C4_secret_precedence envSecretWorld fileSecretRecord).1 (by decide),
   (C4_secret_precedence sampleWorld fileSecretRecord).2 (by decide) (by decide)⟩

/-- Claim C5 fails on the code: in the configuration
`{"prod": prodRecord, "a": null}` no entry's alias list contains the argument
`x`, and in either visiting order the run panics in `containsAlias` on the
`nil` record instead of ending in the fatal alias-not-found error. -/
theorem C5_null_entry_panics :
    loaded nullAfterRecordWorld = some [("prod", some prodRecord), ("a", none)] ∧
    loaded nullBeforeRecordWorld = some [("a", none), ("prod", some prodRecord)] ∧
    nullAfterRecordWorld.args = ["x"] ∧ nullBeforeRecordWorld.args = ["x"] ∧
    "x" ∉ prodRecord.Aliases ∧
    (main nullAfterRecordWorld).status = .panicked ∧
    Effect.log (aliasNotFoundMsg "x") ∉ (main nullAfterRecordWorld).trace ∧
    (main nullBeforeRecordWorld).status = .panicked ∧
    Effect.log (aliasNotFoundMsg "x") ∉ (main nullBeforeRecordWorld).trace := by
  decide

/-- Claim C6: for every selected record, secret resolution fails exactly when
`KUBELOGIN` is empty or unset and the record's `loginSecret` is empty; the run
is then the two reads of the configuration file followed by the fatal log and
`os.Exit(1)`, with no discovery, browser launch, verification or command. -/
theorem C6_missing_secret_is_fatal (w : World) (m : ConfigMap) (s : String)
    (rest : List String) (k : String) (c : Configuration)
    (hm : (rawConfig w).res = .ok m) (hargs : w.args = s :: rest)
    (hsel : (resolveAlias m s).res = .ok (k, some c)) :
    (w.getenv "KUBELOGIN" = "" → c.LoginSecret = "" →
      resolveSecret w (some c) = ⟨[.log secretMsg], .error (.exited 1)⟩ ∧
      main w =
        ⟨[.openFile (configPath w) none, .readAll (configPath w) none, .log secretMsg],
          .error (.exited 1)⟩ ∧
      (main w).status.code ≠ 0 ∧
      (∀ e ∈ (main w).trace, e.isOutbound = false) ∧ commands (main w).trace = []) ∧
    ((∃ st, (resolveSecret w (some c)).res = .error st) ↔
      w.getenv "KUBELOGIN" = "" ∧ c.LoginSecret = "") := by
  constructor
  · intro he hs
    have hres : resolveSecret w (some c) = ⟨[.log secretMsg], .error (.exited 1)⟩ := by
      simp [resolveSecret, he, hs, fatal, emit, halt, Run.bind]
    have hmain : main w =
        ⟨[.openFile (configPath w) none, .readAll (configPath w) none, .log secretMsg],
          .error (.exited 1)⟩ := by
      unfold main
      rw [rawConfig_of_ok w _ hm, hargs]
      simp [Run.bind, resolveAlias_of_ok m s _ hsel, hres]
    refine ⟨hres, hmain, ?_, ?_, ?_⟩
    · rw [hmain]; simp [Run.status, Status.code]
    · rw [hmain]; simp [Effect.isOutbound]
    · rw [hmain]; simp [commands]
  · by_cases he : w.getenv "KUBELOGIN" = ""
    · by_cases hs : c.LoginSecret = ""
      · simp [resolveSecret, he, hs, fatal, emit, halt, Run.bind]
      · simp [resolveSecret, he, hs, Run.pure]
    · simp [resolveSecret, he, Run.pure]

/-- Claim C6 at the scenario configuration with the secret removed. -/
theorem C6_missing_secret_is_fatal_witness :
    main noSecretWorld =
      ⟨[.openFile "/home/u/.kubectl-login.json" none,
        .readAll "/home/u/.kubectl-login.json" none, .log secretMsg],
        .error (.exited 1)⟩ :=
  ((C6_missing_secret_is_fatal noSecretWorld [("prod", some noSecretRecord)] "p" [] "prod"
    noSecretRecord (by decide) (by decide) (by decide)).1 (by decide) (by decide)).2.1

/-- Claim C7, as stated, fails: in a run without arguments the first two
effects are the opening and the reading of the configuration file, and the
usage error comes after them. -/
theorem C7_counterexample :
    noArgsWorld.args = [] ∧
    (main noArgsWorld).trace =
      [.openFile "/home/u/.kubectl-login.json" none,
       .readAll "/home/u/.kubectl-login.json" none, .log usageMsg] ∧
    (main noArgsWorld).trace.map Effect.isFileRead = [true, true, false] := by
  decide

/-- Claim C7, amended: in every run without arguments `main` first loads the
configuration file; if that succeeds the run is the two file reads followed by
the fatal usage log and `os.Exit(1)`; if it fails the run is the loader's own
fatal run, without the usage log; in both cases there is no alias resolution
effect, discovery, browser launch, verification or command. -/
theorem C7_usage_after_config (w : World) (h : w.args = []) :
    (∀ m, (rawConfig w).res = .ok m →
      main w =
        ⟨[.openFile (configPath w) none, .readAll (configPath w) none, .log usageMsg],
          .error (.exited 1)⟩) ∧
    (∀ st, (rawConfig w).res = .error st →
      main w = ⟨(rawConfig w).trace, .error (.exited 1)⟩ ∧
      Effect.log usageMsg ∉ (main w).trace) ∧
    (∀ e ∈ (main w).trace, e.isOutbound = false) ∧
    commands (main w).trace = [] ∧ (main w).status = .exited 1 := by
  rcases rawConfig_cases w with ⟨m, hm⟩ | ⟨tr, msg, hm, htr, hlen⟩
  · have hmain : main w =
        ⟨[.openFile (configPath w) none, .readAll (configPath w) none, .log usageMsg],
          .error (.exited 1)⟩ := by
      unfold main
      rw [hm, h]
      simp [Run.bind, fatal, emit, halt]
    refine ⟨fun _ _ => hmain, ?_, ?_, ?_, ?_⟩
    · intro st hst
      rw [hm] at hst
      cases hst
    · rw [hmain]; simp [Effect.isOutbound]
    · rw [hmain]; simp [commands]
    · rw [hmain]; rfl
  · have hmain : main w = ⟨tr ++ [.log msg], .error (.exited 1)⟩ := by
      unfold main
      rw [hm]
      simp [Run.bind]
    have hout : ∀ e ∈ tr ++ [Effect.log msg], e.isOutbound = false := by
      intro e he
      rcases List.mem_append.1 he with he | he
      · have := htr e he
        cases e <;> simp_all [Effect.isFileRead, Effect.isOutbound]
      · simp at he
        rw [he]
        rfl
    refine ⟨?_, ?_, ?_, ?_, ?_⟩
    · intro m hres
      rw [hm] at hres
      cases hres
    · intro st _
      refine ⟨by rw [hmain, hm], ?_⟩
      rw [hmain]
      intro hmem
      rcases List.mem_append.1 hmem with hmem | hmem
      · simpa [Effect.isFileRead] using htr _ hmem
      · simp at hmem
        rw [← hmem] at hlen
        simp [usageMsg] at hlen
    · rw [hmain]; exact hout
    · rw [hmain]
      have hcmd : ∀ l : List Effect, (∀ e ∈ l, e.isOutbound = false) → commands l = [] := by
        intro l
        induction l with
        | nil => intro _; rfl
        | cons e l ih =>
          intro hl
          have he := hl e (List.mem_cons_self _ _)
          have := ih (fun x hx => hl x (List.mem_cons_of_mem _ hx))
          cases e <;> simp_all [commands, Effect.isOutbound]
      exact hcmd _ hout
    · rw [hmain]; rfl

/-- The amended claim C7 at the scenario configuration without arguments. -/
theorem C7_usage_after_config_witness :
    main noArgsWorld =
      ⟨[.openFile "/home/u/.kubectl-login.json" none,
        .readAll "/home/u/.kubectl-login.json" none, .log usageMsg],
        .error (.exited 1)⟩ :=
  (C7_usage_after_config noArgsWorld (by decide)).1 [("prod", some prodRecord)] (by decide)

/-- Claim C9: for every configuration map of records, in visiting order, and
every alias that some record contains (in particular two or more records),
the loop ends with the cluster name and the record of the last matching pair;
that pair is what alias resolution returns when its name is not empty. -/
theorem C9_last_match_wins (m : List (String × Configuration)) (s : String)
    (p : String × Configuration) (hlast : (matching m s).getLast? = some p) :
    aliasLoop (ofRecords m) s ("", none) = some (p.1, some p.2) ∧
    (p.1 ≠ "" → resolveAlias (ofRecords m) s = ⟨[], .ok (p.1, some p.2)⟩) := by
  have h := aliasLoop_ofRecords m s ("", none)
  rw [hlast] at h
  refine ⟨h, fun hp => ?_⟩
  simp [resolveAlias, h, hp, Run.pure]

/-- Claim C9 on a map in which the alias `p` is in the first and in the last of
three records: the last one, `west`, is selected, not the first, `east`. -/
theorem C9_last_match_wins_witness :
    (matching sharedAliasMap "p").map Prod.fst = ["east", "west"] ∧
    aliasLoop (ofRecords sharedAliasMap) "p" ("", none) =
      some ("west", some { prodRecord with Cluster := "w", Aliases := ["w", "p"] }) ∧
    resolveAlias (ofRecords sharedAliasMap) "p" =
      ⟨[], .ok ("west", some { prodRecord with Cluster := "w", Aliases := ["w", "p"] })⟩ :=
  ⟨by decide,
   (C9_last_match_wins sharedAliasMap "p"
      ("west", { prodRecord with Cluster := "w", Aliases := ["w", "p"] }) (by decide)).1,
   (C9_last_match_wins sharedAliasMap "p"
      ("west", { prodRecord with Cluster := "w", Aliases := ["w", "p"] }) (by decide)).2
      (by decide)⟩

/-- Claim C10 fails on the code: with the configuration `{"a": null}`, which
the loader returns without error, `containsAlias` reads the alias list of the
`nil` record and the run panics, ending neither in a selection nor in the
alias-not-found error. -/
theorem C10_nil_record_panics :
    (rawConfig nullRecordWorld).res = .ok [("a", none)] ∧
    nullRecordWorld.args = ["x"] ∧
    containsAlias none "x" = none ∧
    aliasLoop [("a", none)] "x" ("", none) = none ∧
    resolveAlias [("a", none)] "x" = ⟨[], .error .panicked⟩ ∧
    main nullRecordWorld =
      ⟨[.openFile "/home/u/.kubectl-login.json" none,
        .readAll "/home/u/.kubectl-login.json" none], .error .panicked⟩ := by
  decide

end KubectlLogin
